import Mathlib

/-!
PeerlessMusic backend — verification of the track-acquisition core.

A shallow embedding of the Python backend's core functions, with theorems
settling the specified properties:

* `cloudinary_service.generate_track_id` (content-identity derivation),
  including a full executable MD5 model;
* `single_script.generate_track_id` (the manual-recovery tool's copy);
* `youtube_service.normalize_audio` (mastering step, error absorption and
  temp-file deletion), with Python `str.replace` semantics;
* `youtube_service.get_stream_url_innertube` (best-audio-format selection,
  Python stable `sort(reverse=True)` semantics);
* `database.add_failed_track` (failure-ledger upsert);
* `main.stream_track` (acquisition coordinator: cache check, in-flight
  guard, failure ledger write, exception paths).
-/

namespace PeerlessMusic

/-! ## Python string primitives

`str.lower` (ASCII range), `str.strip` (Python whitespace set), and UTF-8
encoding (`str.encode`), as used by `generate_track_id`. -/

/-- Python `str.lower` on a single character (ASCII letters). -/
def pyCharLower (c : Char) : Char :=
  if 65 ≤ c.toNat ∧ c.toNat ≤ 90 then Char.ofNat (c.toNat + 32) else c

/-- Python `str.lower`. -/
def pyLower (s : String) : String :=
  ⟨s.data.map pyCharLower⟩

/-- The characters removed by Python `str.strip()`:
space, tab, newline, carriage return, vertical tab, form feed. -/
def isPySpace (c : Char) : Bool :=
  c.toNat = 32 || c.toNat = 9 || c.toNat = 10 ||
    c.toNat = 13 || c.toNat = 11 || c.toNat = 12

/-- Python `str.strip()` on a character list: drop leading and trailing
whitespace. -/
def pyStripList (l : List Char) : List Char :=
  ((l.dropWhile isPySpace).reverse.dropWhile isPySpace).reverse

/-- Python `str.strip()`. -/
def pyStrip (s : String) : String :=
  ⟨pyStripList s.data⟩

/-- UTF-8 encoding of one character (Python `str.encode()`), as byte values. -/
def utf8Char (c : Char) : List Nat :=
  let n := c.toNat
  if n < 128 then [n]
  else if n < 2048 then [192 + n / 64, 128 + n % 64]
  else if n < 65536 then [224 + n / 4096, 128 + n / 64 % 64, 128 + n % 64]
  else [240 + n / 262144, 128 + n / 4096 % 64, 128 + n / 64 % 64, 128 + n % 64]

/-- UTF-8 encoding of a string (Python `str.encode()`). -/
def strBytes (s : String) : List Nat :=
  s.data.flatMap utf8Char

/-! ## MD5 (`hashlib.md5`)

Executable MD5 over byte lists, all words as `Nat` reduced mod `2^32`. -/

/-- `2^32`. -/
def w32 : Nat := 4294967296

/-- 32-bit left rotation (input assumed `< 2^32`). -/
def rotl (x n : Nat) : Nat :=
  (x * 2 ^ n + x / 2 ^ (32 - n)) % w32

/-- MD5 per-operation shift amounts. -/
def md5S : List Nat :=
  [7, 12, 17, 22, 7, 12, 17, 22, 7, 12, 17, 22, 7, 12, 17, 22,
   5, 9, 14, 20, 5, 9, 14, 20, 5, 9, 14, 20, 5, 9, 14, 20,
   4, 11, 16, 23, 4, 11, 16, 23, 4, 11, 16, 23, 4, 11, 16, 23,
   6, 10, 15, 21, 6, 10, 15, 21, 6, 10, 15, 21, 6, 10, 15, 21]

/-- MD5 sine-derived constants. -/
def md5K : List Nat :=
  [3614090360, 3905402710, 606105819, 3250441966,
   4118548399, 1200080426, 2821735955, 4249261313,
   1770035416, 2336552879, 4294925233, 2304563134,
   1804603682, 4254626195, 2792965006, 1236535329,
   4129170786, 3225465664, 643717713, 3921069994,
   3593408605, 38016083, 3634488961, 3889429448,
   568446438, 3275163606, 4107603335, 1163531501,
   2850285829, 4243563512, 1735328473, 2368359562,
   4294588738, 2272392833, 1839030562, 4259657740,
   2763975236, 1272893353, 4139469664, 3200236656,
   681279174, 3936430074, 3572445317, 76029189,
   3654602809, 3873151461, 530742520, 3299628645,
   4096336452, 1126891415, 2878612391, 4237533241,
   1700485571, 2399980690, 4293915773, 2240044497,
   1873313359, 4264355552, 2734768916, 1309151649,
   4149444226, 3174756917, 718787259, 3951481745]

/-- Running MD5 state: four 32-bit words. -/
structure MD5State where
  a : Nat
  b : Nat
  c : Nat
  d : Nat
  deriving Repr, DecidableEq

/-- MD5 initialization vector. -/
def md5Init : MD5State := ⟨1732584193, 4023233417, 2562383102, 271733878⟩

/-- Little-endian 32-bit word `i` of a 64-byte block. -/
def leWord (block : List Nat) (i : Nat) : Nat :=
  block.getD (4 * i) 0 + 256 * block.getD (4 * i + 1) 0 +
    65536 * block.getD (4 * i + 2) 0 + 16777216 * block.getD (4 * i + 3) 0

/-- One of the 64 MD5 operations on a block. -/
def md5Op (block : List Nat) (st : MD5State) (i : Nat) : MD5State :=
  let f :=
    if i < 16 then (st.b &&& st.c) ||| ((4294967295 ^^^ st.b) &&& st.d)
    else if i < 32 then (st.d &&& st.b) ||| ((4294967295 ^^^ st.d) &&& st.c)
    else if i < 48 then st.b ^^^ st.c ^^^ st.d
    else st.c ^^^ (st.b ||| (4294967295 ^^^ st.d))
  let g :=
    if i < 16 then i
    else if i < 32 then (5 * i + 1) % 16
    else if i < 48 then (3 * i + 5) % 16
    else (7 * i) % 16
  let t := (f + st.a + md5K.getD i 0 + leWord block g) % w32
  ⟨st.d, (st.b + rotl t (md5S.getD i 0)) % w32, st.b, st.c⟩

/-- Process one 64-byte block. -/
def md5Block (st : MD5State) (block : List Nat) : MD5State :=
  let r := (List.range 64).foldl (md5Op block) st
  ⟨(st.a + r.a) % w32, (st.b + r.b) % w32, (st.c + r.c) % w32, (st.d + r.d) % w32⟩

/-- MD5 padding: `0x80`, zeros to 56 mod 64, then the bit length as eight
little-endian bytes. -/
def md5Pad (msg : List Nat) : List Nat :=
  let len := msg.length
  let z := (119 - len % 64) % 64
  let bitLen := (8 * len) % (2 ^ 64)
  msg ++ [128] ++ List.replicate z 0 ++
    (List.range 8).map (fun i => bitLen / 2 ^ (8 * i) % 256)

/-- Split a (padded) message into 64-byte blocks. -/
def md5Chunks (l : List Nat) : List (List Nat) :=
  match l with
  | [] => []
  | x :: xs => (x :: xs).take 64 :: md5Chunks ((x :: xs).drop 64)
termination_by l.length
decreasing_by
  simp only [List.length_drop, List.length_cons]
  omega

/-- A 32-bit word as four little-endian bytes. -/
def wordLE (w : Nat) : List Nat :=
  [w % 256, w / 256 % 256, w / 65536 % 256, w / 16777216 % 256]

/-- The 16-byte MD5 digest of a byte list. -/
def md5Bytes (msg : List Nat) : List Nat :=
  let st := (md5Chunks (md5Pad msg)).foldl md5Block md5Init
  wordLE st.a ++ wordLE st.b ++ wordLE st.c ++ wordLE st.d

/-- Lowercase hex digit. -/
def hexChar (n : Nat) : Char :=
  if n < 10 then Char.ofNat (48 + n) else Char.ofNat (87 + n)

/-- `hashlib.md5(msg).hexdigest()` as a character list. -/
def md5Hexdigest (msg : List Nat) : List Char :=
  (md5Bytes msg).flatMap (fun b => [hexChar (b / 16), hexChar (b % 16)])

/-! ## `cloudinary_service.generate_track_id` -/

/-- The normalized combined key `f"{title.lower().strip()}_{artist.lower().strip()}"`. -/
def combinedKey (title artist : String) : String :=
  pyStrip (pyLower title) ++ "_" ++ pyStrip (pyLower artist)

/-- `cloudinary_service.generate_track_id`:
`hashlib.md5(combined.encode()).hexdigest()[:16]`. -/
def generate_track_id (title artist : String) : String :=
  ⟨(md5Hexdigest (strBytes (combinedKey title artist))).take 16⟩

end PeerlessMusic

namespace SingleScript

/-- `single_script.generate_track_id` ("same as backend"):
`hashlib.md5(combined.encode()).hexdigest()[:16]` over
`f"{title.lower().strip()}_{artist.lower().strip()}"`. -/
def generate_track_id (title artist : String) : String :=
  ⟨(PeerlessMusic.md5Hexdigest (PeerlessMusic.strBytes
      (PeerlessMusic.combinedKey title artist))).take 16⟩

end SingleScript

namespace PeerlessMusic

/-! ## Normalization lemmas for the content id -/

theorem char_toNat_ofNat_lt {n : Nat} (h : n < 55296) : (Char.ofNat n).toNat = n := by
  rw [Char.ofNat, dif_pos (Or.inl h)]
  rfl

theorem isPySpace_pyCharLower (c : Char) : isPySpace (pyCharLower c) = isPySpace c := by
  unfold pyCharLower
  split
  · next h =>
    have hv : (Char.ofNat (c.toNat + 32)).toNat = c.toNat + 32 :=
      char_toNat_ofNat_lt (by omega)
    simp only [isPySpace, hv]
    have h1 : c.toNat + 32 ≠ 32 := by omega
    have h2 : c.toNat ≠ 32 := by omega
    simp [decide_eq_false, h1, h2, show c.toNat + 32 ≠ 9 by omega,
      show c.toNat ≠ 9 by omega, show c.toNat + 32 ≠ 10 by omega,
      show c.toNat ≠ 10 by omega, show c.toNat + 32 ≠ 13 by omega,
      show c.toNat ≠ 13 by omega, show c.toNat + 32 ≠ 11 by omega,
      show c.toNat ≠ 11 by omega, show c.toNat + 32 ≠ 12 by omega,
      show c.toNat ≠ 12 by omega]
  · rfl

theorem pyStripList_map_pyCharLower (l : List Char) :
    pyStripList (l.map pyCharLower) = (pyStripList l).map pyCharLower := by
  have hp : (isPySpace ∘ pyCharLower) = isPySpace := by
    funext c
    exact isPySpace_pyCharLower c
  unfold pyStripList
  rw [List.dropWhile_map, hp, ← List.map_reverse, List.dropWhile_map, hp,
    ← List.map_reverse]

theorem pyStrip_pyLower_comm (s : String) :
    pyStrip (pyLower s) = pyLower (pyStrip s) := by
  simp [pyStrip, pyLower, pyStripList_map_pyCharLower]

theorem combinedKey_congr {t1 a1 t2 a2 : String}
    (ht : pyStrip (pyLower t1) = pyStrip (pyLower t2))
    (ha : pyStrip (pyLower a1) = pyStrip (pyLower a2)) :
    combinedKey t1 a1 = combinedKey t2 a2 := by
  simp [combinedKey, ht, ha]

theorem length_md5Bytes (msg : List Nat) : (md5Bytes msg).length = 16 := by
  simp [md5Bytes, wordLE]

theorem length_md5Hexdigest (msg : List Nat) : (md5Hexdigest msg).length = 32 := by
  have h : ∀ l : List Nat,
      (l.flatMap (fun b => [hexChar (b / 16), hexChar (b % 16)])).length = 2 * l.length := by
    intro l
    induction l with
    | nil => simp
    | cons x xs ih => simp [ih]; omega
  simp [md5Hexdigest, h, length_md5Bytes]

end PeerlessMusic

open PeerlessMusic in
/-- C1: `generate_track_id` is a pure deterministic function of the normalized
inputs and is case- and whitespace-insensitive: whenever
`lowercase(trim(title))` and `lowercase(trim(artist))` agree, the ids agree;
in particular `generate_track_id "Foo " "Bar" = generate_track_id "foo" "bar "`;
and the result is always a 16-character string, for every input. -/
theorem C1_track_id_normalization_and_length :
    (∀ t1 a1 t2 a2 : String,
      pyLower (pyStrip t1) = pyLower (pyStrip t2) →
      pyLower (pyStrip a1) = pyLower (pyStrip a2) →
      generate_track_id t1 a1 = generate_track_id t2 a2) ∧
    generate_track_id "Foo " "Bar" = generate_track_id "foo" "bar " ∧
    (∀ t a : String, (generate_track_id t a).length = 16) := by
  have main : ∀ t1 a1 t2 a2 : String,
      pyLower (pyStrip t1) = pyLower (pyStrip t2) →
      pyLower (pyStrip a1) = pyLower (pyStrip a2) →
      generate_track_id t1 a1 = generate_track_id t2 a2 := by
    intro t1 a1 t2 a2 h1 h2
    have ht : pyStrip (pyLower t1) = pyStrip (pyLower t2) := by
      rw [pyStrip_pyLower_comm, pyStrip_pyLower_comm, h1]
    have ha : pyStrip (pyLower a1) = pyStrip (pyLower a2) := by
      rw [pyStrip_pyLower_comm, pyStrip_pyLower_comm, h2]
    simp [generate_track_id, combinedKey_congr ht ha]
  refine ⟨main, main "Foo " "Bar" "foo" "bar " (by decide) (by decide), ?_⟩
  intro t a
  show (String.mk _).length = 16
  simp [String.length, length_md5Hexdigest]

open PeerlessMusic in
/-- C1 witness: the normalization hypotheses hold at the concrete pair from the
claim, and the empty-string id also has length 16. -/
theorem C1_track_id_normalization_and_length_witness :
    generate_track_id "Foo " "Bar" = generate_track_id "foo" "bar " ∧
    (generate_track_id "" "").length = 16 :=
  ⟨C1_track_id_normalization_and_length.1 "Foo " "Bar" "foo" "bar "
      (by decide) (by decide),
    C1_track_id_normalization_and_length.2.2 "" ""⟩

/-- C2: the content-id derivation of the backend service
(`cloudinary_service.generate_track_id`) and of the standalone manual-recovery
tool (`single_script.generate_track_id`) are extensionally equal. -/
theorem C2_track_id_service_equals_recovery_tool :
    ∀ title artist : String,
      PeerlessMusic.generate_track_id title artist =
        SingleScript.generate_track_id title artist :=
  fun _ _ => rfl

namespace PeerlessMusic

/-! ## Python `str.replace` and `youtube_service.normalize_audio`

`normalize_audio` computes `input_path.replace(".mp3", "_normalized.mp3")`,
runs the ffmpeg filter chain with `check=True`, and on success deletes the
input file; `subprocess.CalledProcessError` (a nonzero ffmpeg exit) is the
only exception the `except` clause absorbs. The filesystem is a list of
existing paths; the ffmpeg run is modelled by its exit code (0 = success),
under which ffmpeg creates the output file. -/

/-- Does `pat` occur at the start of `text`? -/
def startsWithL : List Char → List Char → Bool
  | [], _ => true
  | _ :: _, [] => false
  | p :: ps, c :: cs => p = c && startsWithL ps cs

/-- Python `str.replace`: replace each non-overlapping occurrence of `pat`,
scanning left to right. -/
def replaceAux (pat rep : List Char) (l : List Char) : List Char :=
  match l with
  | [] => []
  | c :: rest =>
    if startsWithL pat (c :: rest) then
      rep ++ replaceAux pat rep (rest.drop (pat.length - 1))
    else
      c :: replaceAux pat rep rest
termination_by l.length
decreasing_by
  · simp only [List.length_drop, List.length_cons]
    omega
  · simp

/-- Does `pat` occur as a substring of `l`? -/
def hasSubL (pat : List Char) : List Char → Bool
  | [] => pat.isEmpty
  | c :: rest => startsWithL pat (c :: rest) || hasSubL pat rest

/-- Python `str.replace` on strings. -/
def pyReplace (s pat rep : String) : String :=
  ⟨replaceAux pat.data rep.data s.data⟩

/-- Python exceptions relevant to `normalize_audio`. -/
inductive PyErr where
  | calledProcessError
  | fileNotFound
  deriving Repr, DecidableEq

/-- `os.remove(p)`: delete the file, raising `FileNotFoundError` when absent. -/
def os_remove (fs : List String) (p : String) : Except PyErr (List String) :=
  if p ∈ fs then .ok (fs.erase p) else .error .fileNotFound

/-- `subprocess.run(ffmpeg ... output_path, check=True)`: with exit code 0
the output file is written; a nonzero exit raises `CalledProcessError`. -/
def run_ffmpeg (exitCode : Nat) (fs : List String) (output_path : String) :
    Except PyErr (List String) :=
  if exitCode = 0 then .ok (fs.insert output_path) else .error .calledProcessError

/-- The `try` block of `normalize_audio`: run ffmpeg, delete the input,
return the output path. -/
def normalize_audio_try (exitCode : Nat) (fs : List String)
    (input_path output_path : String) : Except PyErr (String × List String) :=
  match run_ffmpeg exitCode fs output_path with
  | .error e => .error e
  | .ok fs1 =>
    match os_remove fs1 input_path with
    | .error e => .error e
    | .ok fs2 => .ok (output_path, fs2)

/-- `youtube_service.normalize_audio` (and the identical
`single_script.normalize_audio`): the `except subprocess.CalledProcessError`
clause returns the input path unchanged; anything else propagates. -/
def normalize_audio (exitCode : Nat) (fs : List String) (input_path : String) :
    Except PyErr (String × List String) :=
  let output_path := pyReplace input_path ".mp3" "_normalized.mp3"
  match normalize_audio_try exitCode fs input_path output_path with
  | .error .calledProcessError => .ok (input_path, fs)
  | r => r

end PeerlessMusic

open PeerlessMusic in
/-- C3: for every input file present on disk, `normalize_audio` does not
raise: a failing filter/encode run (nonzero ffmpeg exit) yields the original
input path with the filesystem unchanged (the original not deleted), and only
a successful run yields the normalized output path with the original input
file deleted. -/
theorem C3_normalize_audio_never_raises :
    ∀ (exitCode : Nat) (fs : List String) (input_path : String),
      input_path ∈ fs →
      (∃ r, normalize_audio exitCode fs input_path = .ok r) ∧
      (exitCode ≠ 0 → normalize_audio exitCode fs input_path = .ok (input_path, fs)) ∧
      (exitCode = 0 →
        normalize_audio exitCode fs input_path =
          .ok (pyReplace input_path ".mp3" "_normalized.mp3",
            (fs.insert (pyReplace input_path ".mp3" "_normalized.mp3")).erase
              input_path)) := by
  intro exitCode fs input_path hmem
  by_cases h0 : exitCode = 0
  · subst h0
    have hmem' : input_path ∈ fs.insert (pyReplace input_path ".mp3" "_normalized.mp3") :=
      List.mem_insert_of_mem hmem
    have heq : normalize_audio 0 fs input_path =
        .ok (pyReplace input_path ".mp3" "_normalized.mp3",
          (fs.insert (pyReplace input_path ".mp3" "_normalized.mp3")).erase input_path) := by
      simp [normalize_audio, normalize_audio_try, run_ffmpeg, os_remove, hmem']
    exact ⟨⟨_, heq⟩, fun h => absurd rfl h, fun _ => heq⟩
  · have heq : normalize_audio exitCode fs input_path = .ok (input_path, fs) := by
      simp [normalize_audio, normalize_audio_try, run_ffmpeg, h0]
    exact ⟨⟨_, heq⟩, fun _ => heq, fun h => absurd h h0⟩

open PeerlessMusic in
/-- C3 witness: a failing run (exit code 1) on an existing file returns the
input unchanged without raising. -/
theorem C3_normalize_audio_never_raises_witness :
    (∃ r, normalize_audio 1 ["song.mp3"] "song.mp3" = .ok r) ∧
    ((1 : Nat) ≠ 0 → normalize_audio 1 ["song.mp3"] "song.mp3" = .ok ("song.mp3", ["song.mp3"])) ∧
    ((1 : Nat) = 0 →
      normalize_audio 1 ["song.mp3"] "song.mp3" =
        .ok (pyReplace "song.mp3" ".mp3" "_normalized.mp3",
          (["song.mp3"].insert (pyReplace "song.mp3" ".mp3" "_normalized.mp3")).erase
            "song.mp3")) :=
  C3_normalize_audio_never_raises 1 ["song.mp3"] "song.mp3" (by decide)

namespace PeerlessMusic

/-! ## `str.replace` lemmas for the output-path computation -/

/-- The pattern `".mp3"` as characters. -/
def mp3P : List Char := ['.', 'm', 'p', '3']

/-- The replacement `"_normalized.mp3"` as characters. -/
def normR : List Char :=
  ['_', 'n', 'o', 'r', 'm', 'a', 'l', 'i', 'z', 'e', 'd', '.', 'm', 'p', '3']

theorem mp3P_data : ".mp3".data = mp3P := rfl

theorem normR_data : "_normalized.mp3".data = normR := rfl

theorem startsWithL_self_append (pat l : List Char) :
    startsWithL pat (pat ++ l) = true := by
  induction pat with
  | nil => rfl
  | cons p ps ih => simp [startsWithL, ih]

theorem startsWithL_append_of_le (pat : List Char) :
    ∀ t z : List Char, pat.length ≤ t.length →
      startsWithL pat (t ++ z) = startsWithL pat t := by
  induction pat with
  | nil => intro t z _; rfl
  | cons p ps ih =>
    intro t z hlen
    match t with
    | [] => simp at hlen
    | c :: t' =>
      simp only [List.cons_append, startsWithL, List.append_eq]
      rw [ih t' z (by simpa using hlen)]

theorem hasSubL_cons_false {pat : List Char} {c : Char} {rest : List Char}
    (h : hasSubL pat (c :: rest) = false) :
    startsWithL pat (c :: rest) = false ∧ hasSubL pat rest = false := by
  simpa [hasSubL] using h

theorem replaceAux_of_not_hasSub (pat rep : List Char) :
    ∀ l : List Char, hasSubL pat l = false → replaceAux pat rep l = l := by
  intro l
  induction l with
  | nil => intro _; rw [replaceAux]
  | cons c rest ih =>
    intro h
    obtain ⟨h1, h2⟩ := hasSubL_cons_false h
    rw [replaceAux, if_neg (by simp [h1]), ih h2]

theorem le_length_replaceAux (pat rep : List Char) (hne : pat ≠ [])
    (hlen : pat.length ≤ rep.length) :
    ∀ (n : Nat) (l : List Char), l.length ≤ n →
      l.length ≤ (replaceAux pat rep l).length := by
  intro n
  induction n with
  | zero =>
    intro l hl
    have : l = [] := List.eq_nil_of_length_eq_zero (by omega)
    subst this
    simp [replaceAux]
  | succ n ih =>
    intro l hl
    match l with
    | [] => simp [replaceAux]
    | c :: rest =>
      rw [replaceAux]
      split
      · have hdrop : (rest.drop (pat.length - 1)).length = rest.length - (pat.length - 1) := by
          simp
        have hrec := ih (rest.drop (pat.length - 1)) (by simp at hl ⊢; omega)
        have hp : 1 ≤ pat.length := List.length_pos.mpr hne
        simp only [List.length_append, List.length_cons]
        omega
      · have hrec := ih rest (by simp at hl; omega)
        simp only [List.length_cons]
        omega

theorem lt_length_replaceAux (pat rep : List Char) (hne : pat ≠ [])
    (hlen : pat.length < rep.length) :
    ∀ (n : Nat) (l : List Char), l.length ≤ n → hasSubL pat l = true →
      l.length < (replaceAux pat rep l).length := by
  intro n
  induction n with
  | zero =>
    intro l hl hsub
    have : l = [] := List.eq_nil_of_length_eq_zero (by omega)
    subst this
    simp [hasSubL] at hsub
    exact absurd hsub hne
  | succ n ih =>
    intro l hl hsub
    match l with
    | [] =>
      simp [hasSubL] at hsub
      exact absurd hsub hne
    | c :: rest =>
      rw [replaceAux]
      split
      · have hdrop : (rest.drop (pat.length - 1)).length = rest.length - (pat.length - 1) := by
          simp
        have hrec := le_length_replaceAux pat rep hne (by omega)
          (rest.drop (pat.length - 1)).length (rest.drop (pat.length - 1)) le_rfl
        have hp : 1 ≤ pat.length := List.length_pos.mpr hne
        simp only [List.length_append, List.length_cons]
        omega
      · next hstart =>
        obtain hrest : hasSubL pat rest = true := by
          simp [hasSubL, Bool.or_eq_true] at hsub
          rcases hsub with h | h
          · exact absurd (by simp [h]) hstart
          · exact h
        have hrec := ih rest (by simp at hl; omega) hrest
        simp only [List.length_cons]
        omega

theorem startsWithL_mp3_short_false (c : Char) :
    ∀ (a' b : List Char), a'.length < 3 →
      startsWithL mp3P ((c :: a') ++ mp3P ++ b) = false := by
  intro a' b hlen
  match a' with
  | [] =>
    simp only [mp3P, List.cons_append, List.nil_append, startsWithL]
    simp
  | [c1] =>
    simp only [mp3P, List.cons_append, List.nil_append, startsWithL]
    simp
  | [c1, c2] =>
    simp only [mp3P, List.cons_append, List.nil_append, startsWithL]
    simp
  | c1 :: c2 :: c3 :: rest =>
    exfalso
    simp only [List.length_cons] at hlen
    omega

theorem startsWithL_mp3_no_straddle {c : Char} {a' : List Char} (b : List Char)
    (h : startsWithL mp3P (c :: a') = false) :
    startsWithL mp3P ((c :: a') ++ mp3P ++ b) = false := by
  by_cases hlen : 3 ≤ a'.length
  · rw [List.append_assoc, startsWithL_append_of_le mp3P (c :: a') (mp3P ++ b)
      (by simp [mp3P]; omega)]
    exact h
  · exact startsWithL_mp3_short_false c a' b (by omega)

theorem replaceAux_split (b : List Char) :
    ∀ a : List Char, hasSubL mp3P a = false →
      replaceAux mp3P normR (a ++ mp3P ++ b) =
        a ++ normR ++ replaceAux mp3P normR b := by
  intro a
  induction a with
  | nil =>
    intro _
    simp only [List.nil_append]
    rw [show mp3P ++ b = '.' :: ('m' :: 'p' :: '3' :: b) from rfl, replaceAux]
    rw [if_pos (by exact startsWithL_self_append mp3P b)]
    simp [mp3P]
  | cons c a' ih =>
    intro h
    obtain ⟨h1, h2⟩ := hasSubL_cons_false h
    have hngo : startsWithL mp3P ((c :: a') ++ mp3P ++ b) = false :=
      startsWithL_mp3_no_straddle b h1
    rw [List.append_assoc, List.cons_append] at hngo
    show replaceAux mp3P normR ((c :: a') ++ mp3P ++ b) = _
    rw [List.append_assoc, List.cons_append, replaceAux, if_neg (by simp [hngo]),
      ← List.append_assoc, ih h2]
    simp

end PeerlessMusic

open PeerlessMusic in
/-- C10: `normalize_audio` computes its output path as
`input_path.replace(".mp3", "_normalized.mp3")`. For a path with no `".mp3"`
substring the output path equals the input path, so a successful run deletes
that very file and returns a path that no longer exists; only paths containing
`".mp3"` get a distinct output path, with each occurrence (scanned left to
right) substituted. -/
theorem C10_normalize_output_path_collision :
    (∀ p : String, hasSubL mp3P p.data = false →
      pyReplace p ".mp3" "_normalized.mp3" = p) ∧
    (∀ (fs : List String) (p : String), fs.Nodup →
      hasSubL mp3P p.data = false → p ∈ fs →
      ∃ fs', normalize_audio 0 fs p = .ok (p, fs') ∧ p ∉ fs') ∧
    (∀ p : String, hasSubL mp3P p.data = true →
      pyReplace p ".mp3" "_normalized.mp3" ≠ p) ∧
    (∀ a b : String, hasSubL mp3P a.data = false →
      pyReplace (a ++ ".mp3" ++ b) ".mp3" "_normalized.mp3" =
        a ++ "_normalized.mp3" ++ pyReplace b ".mp3" "_normalized.mp3") := by
  have hid : ∀ p : String, hasSubL mp3P p.data = false →
      pyReplace p ".mp3" "_normalized.mp3" = p := by
    intro p hp
    show String.mk (replaceAux ".mp3".data "_normalized.mp3".data p.data) = p
    rw [mp3P_data, normR_data, replaceAux_of_not_hasSub mp3P normR p.data hp]
  refine ⟨hid, ?_, ?_, ?_⟩
  · intro fs p hnodup hp hmem
    have heq := (C3_normalize_audio_never_raises 0 fs p hmem).2.2 rfl
    rw [hid p hp] at heq
    refine ⟨(fs.insert p).erase p, heq, ?_⟩
    rw [List.insert_of_mem hmem]
    exact hnodup.not_mem_erase
  · intro p hp
    intro heq
    have hdata : (pyReplace p ".mp3" "_normalized.mp3").data = p.data := by
      rw [heq]
    have hlen := lt_length_replaceAux mp3P normR (by simp [mp3P])
      (by simp [mp3P, normR]) p.data.length p.data le_rfl hp
    have : (pyReplace p ".mp3" "_normalized.mp3").data =
        replaceAux mp3P normR p.data := by
      show (String.mk (replaceAux ".mp3".data "_normalized.mp3".data p.data)).data = _
      rw [mp3P_data, normR_data]
    rw [this] at hdata
    have := congrArg List.length hdata
    omega
  · intro a b ha
    show String.mk (replaceAux ".mp3".data "_normalized.mp3".data (a ++ ".mp3" ++ b).data) = _
    rw [mp3P_data, normR_data]
    have hdata : (a ++ ".mp3" ++ b).data = a.data ++ mp3P ++ b.data := by
      rw [String.data_append, String.data_append, mp3P_data]
    rw [hdata, replaceAux_split b.data a.data ha]
    show _ = a ++ "_normalized.mp3" ++
      String.mk (replaceAux ".mp3".data "_normalized.mp3".data b.data)
    rw [mp3P_data, normR_data]
    apply String.ext
    simp [String.data_append, normR]

open PeerlessMusic in
/-- C10 witness: for `"track.ogg"` (no `".mp3"`) the output path equals the
input and a successful run leaves no file at the returned path; for
`"a.mp3"` the output path is distinct; and the splitting law at a concrete
occurrence. -/
theorem C10_normalize_output_path_collision_witness :
    pyReplace "track.ogg" ".mp3" "_normalized.mp3" = "track.ogg" ∧
    (∃ fs', normalize_audio 0 ["track.ogg"] "track.ogg" = .ok ("track.ogg", fs') ∧
      "track.ogg" ∉ fs') ∧
    pyReplace "a.mp3" ".mp3" "_normalized.mp3" ≠ "a.mp3" ∧
    pyReplace ("a" ++ ".mp3" ++ ".mp3") ".mp3" "_normalized.mp3" =
      "a" ++ "_normalized.mp3" ++ pyReplace ".mp3" ".mp3" "_normalized.mp3" :=
  ⟨C10_normalize_output_path_collision.1 "track.ogg" (by decide),
    C10_normalize_output_path_collision.2.1 ["track.ogg"] "track.ogg"
      (by decide) (by decide) (by decide),
    C10_normalize_output_path_collision.2.2.1 "a.mp3" (by decide),
    C10_normalize_output_path_collision.2.2.2 "a" ".mp3" (by decide)⟩

namespace PeerlessMusic

/-! ## `main.stream_track` — the acquisition coordinator

External collaborators (Cloudinary, YouTube search/download, the mastering
step) are oracle functions in an `Env`; fallible Python calls return
`Except String` (the raised exception's message). The mutable state is the
module-level `track_processing` dict (its key set), the `failed_tracks`
table, and `CURRENT_TIMESTAMP`. The returned trace records which pipeline
steps were invoked. -/

/-- A search result from `youtube_service.search_youtube`. -/
structure SearchResult where
  video_id : String
  title : String
  artist : String
  thumbnail : String
  duration : Nat
  url : String
  deriving Repr, DecidableEq

/-- Result of `cloudinary_service.get_track_metadata`. -/
structure TrackMeta where
  title : String
  artist : String
  thumbnail : String
  duration : Nat
  audio_url : String
  deriving Repr, DecidableEq

/-- Result of `cloudinary_service.check_audio_exists`. -/
structure ExistingAudio where
  audio_url : String
  duration : Nat
  deriving Repr, DecidableEq

/-- Metadata returned by `youtube_service.download_audio`. -/
structure DownloadMeta where
  title : String
  artist : String
  thumbnail : String
  duration : Nat
  deriving Repr, DecidableEq

/-- Result of `cloudinary_service.upload_audio`. -/
structure UploadResult where
  audio_url : String
  duration : Nat
  deriving Repr, DecidableEq

/-- `models.StreamResponse`. -/
structure StreamResponse where
  track_id : String
  title : String
  artist : String
  thumbnail : String
  duration : Nat
  audio_url : String
  cached : Bool
  deriving Repr, DecidableEq

/-- A raised `HTTPException`. -/
structure HTTPError where
  status_code : Nat
  detail : String
  deriving Repr, DecidableEq

/-- A `failed_tracks` row (`database.py`). -/
structure FailedTrack where
  video_id : String
  video_title : String
  artist : String
  thumbnail_url : String
  duration : Nat
  error_message : String
  track_id : Option String
  status : String
  created_at : Nat
  resolved_at : Option Nat
  deriving Repr, DecidableEq

/-- `database.add_failed_track`: SQLite `INSERT OR REPLACE INTO failed_tracks`
keyed on the unique `video_id` column — any existing row for the id is
replaced by a fresh row with status `'pending'` and `created_at` stamped
`CURRENT_TIMESTAMP`. -/
def add_failed_track (db : List FailedTrack) (now : Nat)
    (video_id video_title artist thumbnail_url : String) (duration : Nat)
    (error_message : String) (track_id : Option String) : List FailedTrack :=
  db.filter (fun r => !(r.video_id == video_id)) ++
    [{ video_id := video_id, video_title := video_title, artist := artist,
       thumbnail_url := thumbnail_url, duration := duration,
       error_message := error_message, track_id := track_id,
       status := "pending", created_at := now, resolved_at := none }]

/-- `database.get_failed_track`: `SELECT * FROM failed_tracks WHERE video_id = ?`. -/
def get_failed_track (db : List FailedTrack) (video_id : String) :
    Option FailedTrack :=
  db.find? (fun r => r.video_id == video_id)

/-- A fallible Python call: a value, or the raised exception's message. -/
abbrev Py (α : Type) := Except String α

/-- The external collaborators consumed by `stream_track`. -/
structure Env where
  get_track_metadata : String → Option TrackMeta
  search_youtube : String → List SearchResult
  check_audio_exists : String → Option ExistingAudio
  check_thumbnail_exists : String → Option String
  download_audio : String → Py (String × DownloadMeta)
  normalize_audio_step : String → Py String
  upload_audio : String → String → String → String → Py UploadResult
  upload_thumbnail_from_url : String → String → Py String

/-- Mutable state touched by `stream_track`: the key set of the module-level
`track_processing` dict, the `failed_tracks` table, and the DB clock. -/
structure St where
  track_processing : List String
  failed_tracks : List FailedTrack
  now : Nat
  deriving Repr, DecidableEq

/-- Pipeline steps, recorded in invocation order. -/
inductive Step where
  | download
  | normalize
  | uploadAudio
  | uploadThumb
  deriving Repr, DecidableEq

/-- `if track_id in track_processing: del track_processing[track_id]`. -/
def delIfMem (l : List String) (k : String) : List String :=
  if k ∈ l then l.erase k else l

/-- The `except Exception` handler of `stream_track`: drop the in-flight
marker, upsert a `failed_tracks` row, re-raise as HTTP 500. -/
def stream_track_failure (st1 : St) (track_info : SearchResult)
    (video_id track_id e : String) (trace : List Step) :
    Except HTTPError StreamResponse × St × List Step :=
  (.error ⟨500, e⟩,
    ⟨delIfMem st1.track_processing track_id,
      add_failed_track st1.failed_tracks st1.now video_id track_info.title
        track_info.artist track_info.thumbnail track_info.duration e
        (some track_id),
      st1.now⟩,
    trace)

/-- `main.stream_track` (`GET /api/stream/{video_id}`). -/
def stream_track (env : Env) (st : St) (video_id : String) :
    Except HTTPError StreamResponse × St × List Step :=
  match env.get_track_metadata video_id with
  | some m =>
    (.ok ⟨video_id, m.title, m.artist, m.thumbnail, m.duration, m.audio_url, true⟩,
      st, [])
  | none =>
    match env.search_youtube video_id with
    | [] => (.error ⟨404, "Track not found"⟩, st, [])
    | track_info :: _ =>
      let track_id := generate_track_id track_info.title track_info.artist
      match env.check_audio_exists track_id with
      | some existing =>
        (.ok ⟨track_id, track_info.title, track_info.artist,
          (env.check_thumbnail_exists track_id).getD track_info.thumbnail,
          track_info.duration, existing.audio_url, true⟩, st, [])
      | none =>
        if track_id ∈ st.track_processing then
          (.error ⟨202, "Track is being processed. Please try again shortly."⟩,
            st, [])
        else
          let st1 : St := { st with track_processing := track_id :: st.track_processing }
          match env.download_audio video_id with
          | .error e =>
            stream_track_failure st1 track_info video_id track_id e [.download]
          | .ok (audio_path, metadata) =>
            match env.normalize_audio_step audio_path with
            | .error e =>
              stream_track_failure st1 track_info video_id track_id e
                [.download, .normalize]
            | .ok normalized_path =>
              match env.upload_audio normalized_path track_id metadata.title
                  metadata.artist with
              | .error e =>
                stream_track_failure st1 track_info video_id track_id e
                  [.download, .normalize, .uploadAudio]
              | .ok upload_result =>
                match env.upload_thumbnail_from_url metadata.thumbnail track_id with
                | .error e =>
                  stream_track_failure st1 track_info video_id track_id e
                    [.download, .normalize, .uploadAudio, .uploadThumb]
                | .ok thumbnail_url =>
                  (.ok ⟨track_id, metadata.title, metadata.artist, thumbnail_url,
                    metadata.duration, upload_result.audio_url, false⟩,
                    ⟨delIfMem st1.track_processing track_id, st1.failed_tracks,
                      st1.now⟩,
                    [.download, .normalize, .uploadAudio, .uploadThumb])

end PeerlessMusic

namespace PeerlessMusic

theorem delIfMem_cons_self (l : List String) (k : String) :
    delIfMem (k :: l) k = l := by
  simp [delIfMem, List.erase_cons_head]

end PeerlessMusic

open PeerlessMusic in
/-- C4: every exit path of `stream_track` — cache hit, 404, 202 rejection,
success, or the `except` handler catching any step's exception — leaves the
in-flight set exactly as it found it; in particular a request that marks its
track id always removes it again before returning or re-raising. -/
theorem C4_inflight_marker_never_leaks :
    ∀ (env : Env) (st : St) (video_id : String),
      ((stream_track env st video_id).2.1).track_processing = st.track_processing := by
  intro env st vid
  cases h1 : env.get_track_metadata vid with
  | some m => simp [stream_track, h1]
  | none =>
    cases h2 : env.search_youtube vid with
    | nil => simp [stream_track, h1, h2]
    | cons ti rest =>
      cases h3 : env.check_audio_exists (generate_track_id ti.title ti.artist) with
      | some ex => simp [stream_track, h1, h2, h3]
      | none =>
        by_cases h4 : generate_track_id ti.title ti.artist ∈ st.track_processing
        · simp [stream_track, h1, h2, h3, h4]
        · cases h5 : env.download_audio vid with
          | error e =>
            simp [stream_track, h1, h2, h3, h4, h5, stream_track_failure,
              delIfMem_cons_self]
          | ok pr =>
            cases h6 : env.normalize_audio_step pr.1 with
            | error e =>
              simp [stream_track, h1, h2, h3, h4, h5, h6, stream_track_failure,
                delIfMem_cons_self]
            | ok npath =>
              cases h7 : env.upload_audio npath (generate_track_id ti.title ti.artist)
                  pr.2.title pr.2.artist with
              | error e =>
                simp [stream_track, h1, h2, h3, h4, h5, h6, h7,
                  stream_track_failure, delIfMem_cons_self]
              | ok ures =>
                cases h8 : env.upload_thumbnail_from_url pr.2.thumbnail
                    (generate_track_id ti.title ti.artist) with
                | error e =>
                  simp [stream_track, h1, h2, h3, h4, h5, h6, h7, h8,
                    stream_track_failure, delIfMem_cons_self]
                | ok turl =>
                  simp [stream_track, h1, h2, h3, h4, h5, h6, h7, h8,
                    delIfMem_cons_self]

namespace PeerlessMusic

/-! ## Concrete fixtures for witnesses and counterexamples -/

/-- A concrete search result. -/
def exTrackInfo : SearchResult :=
  ⟨"vid1", "Title", "Artist", "thumbURL", 100, "url1"⟩

/-- A concrete clean state. -/
def exSt : St := ⟨[], [], 7⟩

/-- A state in which another acquisition already holds the in-flight marker
for `exTrackInfo`'s derived content id. -/
def stBusy : St := ⟨[generate_track_id "Title" "Artist"], [], 7⟩

/-- Cache hit via `get_track_metadata` (the reference is itself a track id);
every pipeline step would raise if reached. -/
def envMetaHit : Env :=
  ⟨fun _ => some ⟨"T", "A", "th", 42, "http://a"⟩, fun _ => [], fun _ => none,
    fun _ => none, fun _ => .error "e", fun _ => .error "e",
    fun _ _ _ _ => .error "e", fun _ _ => .error "e"⟩

/-- Cache hit via `check_audio_exists` on the derived id; every pipeline step
would raise if reached. -/
def envAudioHit : Env :=
  ⟨fun _ => none, fun _ => [exTrackInfo], fun _ => some ⟨"http://a", 100⟩,
    fun _ => none, fun _ => .error "e", fun _ => .error "e",
    fun _ _ _ _ => .error "e", fun _ _ => .error "e"⟩

/-- Cache miss with every pipeline step succeeding. -/
def envAcquire : Env :=
  ⟨fun _ => none, fun _ => [exTrackInfo], fun _ => none, fun _ => none,
    fun _ => .ok ("/tmp/a.webm", ⟨"Title", "Artist", "thumbURL", 100⟩),
    fun p => .ok p, fun _ _ _ _ => .ok ⟨"http://a", 100⟩,
    fun _ _ => .ok "http://t"⟩

/-- Cache miss where the audio upload succeeds but the thumbnail upload
raises. -/
def envThumbFail : Env :=
  { envAcquire with upload_thumbnail_from_url := fun _ _ => .error "boom" }

end PeerlessMusic

open PeerlessMusic in
/-- C6: a request whose reference maps to an asset already in the store —
either the reference is itself a cached track id, or the id derived from the
search result's title/artist has existing audio — returns that asset with
`cached = true`, leaves the state untouched, and invokes no resolver,
mastering, or upload step (empty trace). -/
theorem C6_cache_hit_short_circuit :
    ∀ (env : Env) (st : St) (vid : String),
      (∀ m, env.get_track_metadata vid = some m →
        stream_track env st vid =
          (.ok ⟨vid, m.title, m.artist, m.thumbnail, m.duration, m.audio_url, true⟩,
            st, [])) ∧
      (∀ (ti : SearchResult) (rest : List SearchResult) (ex : ExistingAudio),
        env.get_track_metadata vid = none →
        env.search_youtube vid = ti :: rest →
        env.check_audio_exists (generate_track_id ti.title ti.artist) = some ex →
        stream_track env st vid =
          (.ok ⟨generate_track_id ti.title ti.artist, ti.title, ti.artist,
            (env.check_thumbnail_exists (generate_track_id ti.title ti.artist)).getD
              ti.thumbnail,
            ti.duration, ex.audio_url, true⟩, st, [])) := by
  intro env st vid
  constructor
  · intro m h1
    simp [stream_track, h1]
  · intro ti rest ex h1 h2 h3
    simp [stream_track, h1, h2, h3]

open PeerlessMusic in
/-- C6 witness: both cache-hit branches at concrete inputs. -/
theorem C6_cache_hit_short_circuit_witness :
    stream_track envMetaHit exSt "x1" =
      (.ok ⟨"x1", "T", "A", "th", 42, "http://a", true⟩, exSt, []) ∧
    stream_track envAudioHit exSt "vid1" =
      (.ok ⟨generate_track_id exTrackInfo.title exTrackInfo.artist,
        exTrackInfo.title, exTrackInfo.artist,
        (envAudioHit.check_thumbnail_exists
          (generate_track_id exTrackInfo.title exTrackInfo.artist)).getD
            exTrackInfo.thumbnail,
        exTrackInfo.duration, "http://a", true⟩, exSt, []) :=
  ⟨(C6_cache_hit_short_circuit envMetaHit exSt "x1").1 ⟨"T", "A", "th", 42, "http://a"⟩ rfl,
    (C6_cache_hit_short_circuit envAudioHit exSt "vid1").2 exTrackInfo []
      ⟨"http://a", 100⟩ rfl rfl rfl⟩

open PeerlessMusic in
/-- C5 counterexample: with one acquisition of `exTrackInfo`'s content id in
flight (its id is in `track_processing`, the asset not yet uploaded), a
second concurrent request for the same content is rejected with HTTP 202 and
an empty trace — it does not observe the resulting cached asset, refuting
"both callers observe the resulting cached asset". -/
theorem C5_second_caller_rejected_cx :
    stream_track envAcquire stBusy "vid1" =
      (.error ⟨202, "Track is being processed. Please try again shortly."⟩,
        stBusy, []) ∧
    ∀ r : StreamResponse, (stream_track envAcquire stBusy "vid1").1 ≠ .ok r := by
  have h : stream_track envAcquire stBusy "vid1" =
      (.error ⟨202, "Track is being processed. Please try again shortly."⟩,
        stBusy, []) := by
    have hmem : generate_track_id "Title" "Artist" ∈ stBusy.track_processing :=
      List.mem_singleton.mpr rfl
    simp [stream_track, envAcquire, exTrackInfo, hmem]
  refine ⟨h, fun r hr => ?_⟩
  rw [h] at hr
  exact Except.noConfusion hr

open PeerlessMusic in
/-- C5 (amended): the in-flight guard enforces at most one concurrent chain
per content id — a request that finds the derived id in `track_processing`
invokes no resolve/master/upload step and fails with HTTP 202 "retry
shortly" (it does not receive the asset); a request that finds the id free
marks it and, when all steps succeed, runs the chain exactly once
(download, normalize, upload audio, upload thumbnail) and returns the new
asset with `cached = false`. -/
theorem C5_single_flight_guard :
    ∀ (env : Env) (st : St) (vid : String) (ti : SearchResult)
      (rest : List SearchResult),
      env.get_track_metadata vid = none →
      env.search_youtube vid = ti :: rest →
      env.check_audio_exists (generate_track_id ti.title ti.artist) = none →
      (generate_track_id ti.title ti.artist ∈ st.track_processing →
        stream_track env st vid =
          (.error ⟨202, "Track is being processed. Please try again shortly."⟩,
            st, [])) ∧
      (∀ (path : String) (meta : DownloadMeta) (npath : String)
        (ures : UploadResult) (turl : String),
        generate_track_id ti.title ti.artist ∉ st.track_processing →
        env.download_audio vid = .ok (path, meta) →
        env.normalize_audio_step path = .ok npath →
        env.upload_audio npath (generate_track_id ti.title ti.artist)
          meta.title meta.artist = .ok ures →
        env.upload_thumbnail_from_url meta.thumbnail
          (generate_track_id ti.title ti.artist) = .ok turl →
        stream_track env st vid =
          (.ok ⟨generate_track_id ti.title ti.artist, meta.title, meta.artist,
            turl, meta.duration, ures.audio_url, false⟩,
            ⟨st.track_processing, st.failed_tracks, st.now⟩,
            [.download, .normalize, .uploadAudio, .uploadThumb])) := by
  intro env st vid ti rest h1 h2 h3
  constructor
  · intro hmem
    simp [stream_track, h1, h2, h3, hmem]
  · intro path meta npath ures turl hnot h5 h6 h7 h8
    simp [stream_track, h1, h2, h3, hnot, h5, h6, h7, h8, delIfMem_cons_self]

open PeerlessMusic in
/-- C5 witness: the busy rejection at a concrete in-flight state, by applying
the guard theorem. -/
theorem C5_single_flight_guard_witness :
    stream_track envAcquire stBusy "vid1" =
      (.error ⟨202, "Track is being processed. Please try again shortly."⟩,
        stBusy, []) :=
  (C5_single_flight_guard envAcquire stBusy "vid1" exTrackInfo [] rfl rfl rfl).1
    (List.mem_singleton.mpr rfl)

open PeerlessMusic in
/-- C7 counterexample: with the audio upload succeeding and the thumbnail
upload raising, the broad `except` handler catches the exception — the
caller receives HTTP 500 (not the new asset) and a pending FailedAcquisition
record IS written, refuting "the acquisition still completes successfully
... no FailedAcquisition record is written". The trace shows the audio
upload did run (and nothing rolls it back). -/
theorem C7_thumbnail_failure_cx :
    (stream_track envThumbFail exSt "vid1").1 = .error ⟨500, "boom"⟩ ∧
    get_failed_track ((stream_track envThumbFail exSt "vid1").2.1).failed_tracks
      "vid1" =
      some ⟨"vid1", "Title", "Artist", "thumbURL", 100, "boom",
        some (generate_track_id "Title" "Artist"), "pending", 7, none⟩ ∧
    (stream_track envThumbFail exSt "vid1").2.2 =
      [.download, .normalize, .uploadAudio, .uploadThumb] := by
  have h : stream_track envThumbFail exSt "vid1" =
      (.error ⟨500, "boom"⟩,
        ⟨[], add_failed_track [] 7 "vid1" "Title" "Artist" "thumbURL" 100 "boom"
          (some (generate_track_id "Title" "Artist")), 7⟩,
        [.download, .normalize, .uploadAudio, .uploadThumb]) := by
    simp [stream_track, envThumbFail, envAcquire, exTrackInfo, exSt,
      stream_track_failure, delIfMem_cons_self]
  rw [h]
  refine ⟨rfl, ?_, rfl⟩
  simp [get_failed_track, add_failed_track]

open PeerlessMusic in
/-- C7 (amended): when the audio upload succeeds and the subsequent
thumbnail upload raises, the request fails from the caller's perspective:
the exception is caught by the endpoint's handler, which releases the
in-flight marker, upserts a pending FailedAcquisition record, and re-raises
as HTTP 500 with the error text; the already-uploaded audio is not rolled
back (the executed steps are exactly download, normalize, upload audio,
attempted thumbnail upload — no deletion), so the asset remains cached. -/
theorem C7_thumbnail_failure_aborts :
    ∀ (env : Env) (st : St) (vid : String) (ti : SearchResult)
      (rest : List SearchResult) (path : String) (meta : DownloadMeta)
      (npath : String) (ures : UploadResult) (e : String),
      env.get_track_metadata vid = none →
      env.search_youtube vid = ti :: rest →
      env.check_audio_exists (generate_track_id ti.title ti.artist) = none →
      generate_track_id ti.title ti.artist ∉ st.track_processing →
      env.download_audio vid = .ok (path, meta) →
      env.normalize_audio_step path = .ok npath →
      env.upload_audio npath (generate_track_id ti.title ti.artist)
        meta.title meta.artist = .ok ures →
      env.upload_thumbnail_from_url meta.thumbnail
        (generate_track_id ti.title ti.artist) = .error e →
      stream_track env st vid =
        (.error ⟨500, e⟩,
          ⟨st.track_processing,
            add_failed_track st.failed_tracks st.now vid ti.title ti.artist
              ti.thumbnail ti.duration e
              (some (generate_track_id ti.title ti.artist)),
            st.now⟩,
          [.download, .normalize, .uploadAudio, .uploadThumb]) := by
  intro env st vid ti rest path meta npath ures e h1 h2 h3 h4 h5 h6 h7 h8
  simp [stream_track, h1, h2, h3, h4, h5, h6, h7, h8, stream_track_failure,
    delIfMem_cons_self]

open PeerlessMusic in
/-- C7 witness: the amended behavior at the concrete thumbnail-failure
environment. -/
theorem C7_thumbnail_failure_aborts_witness :
    stream_track envThumbFail exSt "vid1" =
      (.error ⟨500, "boom"⟩,
        ⟨exSt.track_processing,
          add_failed_track exSt.failed_tracks exSt.now "vid1" exTrackInfo.title
            exTrackInfo.artist exTrackInfo.thumbnail exTrackInfo.duration "boom"
            (some (generate_track_id exTrackInfo.title exTrackInfo.artist)),
          exSt.now⟩,
        [.download, .normalize, .uploadAudio, .uploadThumb]) :=
  C7_thumbnail_failure_aborts envThumbFail exSt "vid1" exTrackInfo []
    "/tmp/a.webm" ⟨"Title", "Artist", "thumbURL", 100⟩ "/tmp/a.webm"
    ⟨"http://a", 100⟩ "boom" rfl rfl rfl (by simp [exSt]) rfl rfl rfl rfl

open PeerlessMusic in
/-- C8: `add_failed_track` has upsert semantics on the unique `video_id`
key: after it runs there is exactly one ledger row for the video id, and
that row carries the new metadata and error text with status `'pending'`, a
fresh `created_at`, and a cleared `resolved_at`; rows for every other video
id are untouched; and if the ledger had at most one row per video id before,
it still does after — a second terminal failure for the same id therefore
overwrites rather than duplicates. -/
theorem C8_failed_ledger_upsert :
    ∀ (db : List FailedTrack) (now : Nat) (vid vtitle artist thumb : String)
      (dur : Nat) (e : String) (tid : Option String),
      (add_failed_track db now vid vtitle artist thumb dur e tid).countP
        (fun r => r.video_id == vid) = 1 ∧
      get_failed_track (add_failed_track db now vid vtitle artist thumb dur e tid)
        vid = some ⟨vid, vtitle, artist, thumb, dur, e, tid, "pending", now, none⟩ ∧
      (∀ w : String, w ≠ vid →
        (add_failed_track db now vid vtitle artist thumb dur e tid).filter
          (fun r => r.video_id == w) = db.filter (fun r => r.video_id == w)) ∧
      ((∀ w : String, db.countP (fun r => r.video_id == w) ≤ 1) →
        ∀ w : String,
          (add_failed_track db now vid vtitle artist thumb dur e tid).countP
            (fun r => r.video_id == w) ≤ 1) := by
  intro db now vid vtitle artist thumb dur e tid
  have hcount : (add_failed_track db now vid vtitle artist thumb dur e tid).countP
      (fun r => r.video_id == vid) = 1 := by
    unfold add_failed_track
    rw [List.countP_append]
    have hz : (db.filter (fun r => !(r.video_id == vid))).countP
        (fun r => r.video_id == vid) = 0 := by
      rw [List.countP_eq_zero]
      intro r hr
      have := (List.mem_filter.mp hr).2
      simp at this ⊢
      exact this
    rw [hz]
    simp [List.countP_cons]
  have hother : ∀ w : String, w ≠ vid →
      (add_failed_track db now vid vtitle artist thumb dur e tid).filter
        (fun r => r.video_id == w) = db.filter (fun r => r.video_id == w) := by
    intro w hw
    unfold add_failed_track
    rw [List.filter_append, List.filter_filter]
    have h1 : db.filter (fun a => (a.video_id == w) && !(a.video_id == vid)) =
        db.filter (fun a => a.video_id == w) := by
      apply List.filter_congr
      intro r _
      by_cases hr : r.video_id = w
      · simp [hr, hw, (by simpa [hr] using hw : r.video_id ≠ vid)]
      · simp [hr]
    have h2 : List.filter (fun r => r.video_id == w)
        [({ video_id := vid, video_title := vtitle, artist := artist,
            thumbnail_url := thumb, duration := dur, error_message := e,
            track_id := tid, status := "pending", created_at := now,
            resolved_at := none } : FailedTrack)] = [] := by
      have hvw : (vid == w) = false := by simpa using Ne.symm hw
      simp [List.filter, hvw]
    rw [h1, h2, List.append_nil]
  refine ⟨hcount, ?_, hother, ?_⟩
  · unfold get_failed_track add_failed_track
    rw [List.find?_append]
    have hnone : (db.filter (fun r => !(r.video_id == vid))).find?
        (fun r => r.video_id == vid) = none := by
      rw [List.find?_eq_none]
      intro r hr
      have := (List.mem_filter.mp hr).2
      simp at this ⊢
      exact this
    rw [hnone]
    simp [List.find?]
  · intro hbound w
    by_cases hw : w = vid
    · subst hw
      exact hcount.le
    · rw [List.countP_eq_length_filter, hother w hw,
        ← List.countP_eq_length_filter]
      exact hbound w

open PeerlessMusic in
/-- C8 witness: a first failure recorded into an empty ledger, with the
other-id and at-most-one parts instantiated concretely. -/
theorem C8_failed_ledger_upsert_witness :
    (add_failed_track [] 7 "vid1" "T" "A" "th" 100 "err" (some "tid")).countP
      (fun r => r.video_id == "vid1") = 1 ∧
    get_failed_track (add_failed_track [] 7 "vid1" "T" "A" "th" 100 "err"
      (some "tid")) "vid1" =
      some ⟨"vid1", "T", "A", "th", 100, "err", some "tid", "pending", 7, none⟩ ∧
    (add_failed_track [] 7 "vid1" "T" "A" "th" 100 "err" (some "tid")).filter
      (fun r => r.video_id == "other") =
      ([] : List FailedTrack).filter (fun r => r.video_id == "other") ∧
    (add_failed_track [] 7 "vid1" "T" "A" "th" 100 "err" (some "tid")).countP
      (fun r => r.video_id == "w") ≤ 1 :=
  have T := C8_failed_ledger_upsert [] 7 "vid1" "T" "A" "th" 100 "err" (some "tid")
  ⟨T.1, T.2.1, T.2.2.1 "other" (by decide), T.2.2.2 (fun _ => by simp) "w"⟩

namespace PeerlessMusic

/-! ## `youtube_service.get_stream_url_innertube` — best-audio selection

`adaptiveFormats` entries are dicts read with `.get(...)` defaults; the
selection filters audio mime types, sorts by `x.get("bitrate", 0)` with
`reverse=True` (Python's sort is stable: ties keep provider order, and
`reverse=True` preserves stability), and takes element `[0]`. -/

/-- One entry of `streamingData.adaptiveFormats`. -/
structure AdaptiveFormat where
  mimeType : Option String
  bitrate : Option Nat
  url : Option String
  deriving Repr, DecidableEq

/-- `f.get("mimeType", "").startswith("audio/")`. -/
def isAudioFormat (f : AdaptiveFormat) : Bool :=
  startsWithL "audio/".data (f.mimeType.getD "").data

/-- `x.get("bitrate", 0)`. -/
def bitrateKey (f : AdaptiveFormat) : Nat :=
  f.bitrate.getD 0

/-- Stable insertion into a descending-sorted list: an element passes over
strictly larger keys and stops before the first less-or-equal key, so equal
keys keep the earlier element first. -/
def insertDesc (key : α → Nat) (x : α) : List α → List α
  | [] => [x]
  | y :: ys => if key y ≤ key x then x :: y :: ys else y :: insertDesc key x ys

/-- Python `list.sort(key=..., reverse=True)`: stable descending sort. -/
def sortDesc (key : α → Nat) (l : List α) : List α :=
  l.foldr (insertDesc key) []

/-- The maximal key of a list (0 when empty). -/
def maxKeyD (key : α → Nat) (l : List α) : Nat :=
  l.foldr (fun a m => max (key a) m) 0

/-- The audio-format selection of `get_stream_url_innertube`: filter audio
mime types, stable-sort by bitrate descending, take `audio_formats[0]`. -/
def bestAudioFormat (formats : List AdaptiveFormat) : Option AdaptiveFormat :=
  (sortDesc bitrateKey (formats.filter isAudioFormat)).head?

theorem insertDesc_ne_nil (key : α → Nat) (x : α) (l : List α) :
    insertDesc key x l ≠ [] := by
  cases l with
  | nil => simp [insertDesc]
  | cons y ys =>
    rw [insertDesc]
    split <;> simp

theorem sortDesc_eq_nil_iff (key : α → Nat) (l : List α) :
    sortDesc key l = [] ↔ l = [] := by
  cases l with
  | nil => simp [sortDesc]
  | cons x xs =>
    simp only [sortDesc, List.foldr_cons]
    constructor
    · intro h
      exact absurd h (insertDesc_ne_nil key x _)
    · intro h
      exact absurd h (by simp)

theorem maxKeyD_cons (key : α → Nat) (x : α) (xs : List α) :
    maxKeyD key (x :: xs) = max (key x) (maxKeyD key xs) := rfl

theorem le_maxKeyD (key : α → Nat) :
    ∀ (l : List α) (a : α), a ∈ l → key a ≤ maxKeyD key l := by
  intro l
  induction l with
  | nil => intro a ha; simp at ha
  | cons x xs ih =>
    intro a ha
    rw [maxKeyD_cons]
    rcases List.mem_cons.mp ha with h | h
    · subst h; exact Nat.le_max_left _ _
    · exact le_trans (ih a h) (Nat.le_max_right _ _)

theorem sortDesc_head? (key : α → Nat) :
    ∀ l : List α,
      (sortDesc key l).head? = l.find? (fun a => key a == maxKeyD key l) := by
  intro l
  induction l with
  | nil => rfl
  | cons x xs ih =>
    show (insertDesc key x (sortDesc key xs)).head? = _
    cases hs : sortDesc key xs with
    | nil =>
      have hxs : xs = [] := (sortDesc_eq_nil_iff key xs).mp hs
      subst hxs
      simp [insertDesc, maxKeyD, List.find?]
    | cons y ys =>
      have hfind : xs.find? (fun a => key a == maxKeyD key xs) = some y := by
        rw [← ih, hs]
        rfl
      have hy : key y = maxKeyD key xs := by
        have := List.find?_some hfind
        simpa using this
      by_cases hcmp : key y ≤ key x
      · have hmax : maxKeyD key (x :: xs) = key x := by
          rw [maxKeyD_cons]
          omega
        rw [insertDesc, if_pos hcmp]
        simp [List.find?, hmax]
      · have hlt : key x < key y := by omega
        have hmax : maxKeyD key (x :: xs) = maxKeyD key xs := by
          rw [maxKeyD_cons]
          omega
        have hpx : (key x == maxKeyD key (x :: xs)) = false := by
          rw [hmax]
          simp
          omega
        rw [insertDesc, if_neg hcmp]
        rw [List.find?]
        rw [hpx, hmax, hfind]
        rfl

end PeerlessMusic

open PeerlessMusic in
/-- C9: whenever the provider's `adaptiveFormats` list has at least one
audio-mime-type variant, `get_stream_url_innertube` selects among the audio
variants the one with the highest bitrate (a missing bitrate counting as 0);
when several audio variants share the maximal bitrate it selects the first
one in the provider's original order — i.e. the selection equals `find?` of
the maximal-bitrate predicate over the filtered list. -/
theorem C9_best_audio_format_selection :
    ∀ formats : List AdaptiveFormat,
      formats.filter isAudioFormat ≠ [] →
      ∃ best : AdaptiveFormat,
        bestAudioFormat formats = some best ∧
        (formats.filter isAudioFormat).find?
          (fun a => bitrateKey a == maxKeyD bitrateKey (formats.filter isAudioFormat)) =
          some best ∧
        best ∈ formats.filter isAudioFormat ∧
        ∀ a ∈ formats.filter isAudioFormat, bitrateKey a ≤ bitrateKey best := by
  intro formats hne
  have hh := sortDesc_head? bitrateKey (formats.filter isAudioFormat)
  cases hbest : (sortDesc bitrateKey (formats.filter isAudioFormat)).head? with
  | none =>
    exfalso
    have := List.head?_eq_none_iff.mp hbest
    exact hne ((sortDesc_eq_nil_iff bitrateKey _).mp this)
  | some best =>
    have hfind : (formats.filter isAudioFormat).find?
        (fun a => bitrateKey a == maxKeyD bitrateKey (formats.filter isAudioFormat)) =
        some best := by
      rw [← hh, hbest]
    have hmem : best ∈ formats.filter isAudioFormat :=
      List.mem_of_find?_eq_some hfind
    have hkey : bitrateKey best = maxKeyD bitrateKey (formats.filter isAudioFormat) := by
      have := List.find?_some hfind
      simpa using this
    refine ⟨best, ?_, hfind, hmem, ?_⟩
    · show (sortDesc bitrateKey (formats.filter isAudioFormat)).head? = some best
      exact hbest
    · intro a ha
      rw [hkey]
      exact le_maxKeyD bitrateKey _ a ha

open PeerlessMusic in
/-- C9 witness: a format list with a video variant, two audio variants tied
at the maximal bitrate, and a lower-bitrate audio variant with a missing
bitrate field — the selection picks the first of the tied pair. -/
theorem C9_best_audio_format_selection_witness :
    ∃ best : AdaptiveFormat,
      bestAudioFormat
        [⟨some "video/mp4", some 999999, some "v"⟩,
         ⟨some "audio/webm", some 128000, some "a1"⟩,
         ⟨some "audio/mp4", some 128000, some "a2"⟩,
         ⟨some "audio/mp4", none, some "a3"⟩] = some best ∧
      ([⟨some "video/mp4", some 999999, some "v"⟩,
        ⟨some "audio/webm", some 128000, some "a1"⟩,
        ⟨some "audio/mp4", some 128000, some "a2"⟩,
        ⟨some "audio/mp4", none, some "a3"⟩].filter isAudioFormat).find?
        (fun a => bitrateKey a == maxKeyD bitrateKey
          ([⟨some "video/mp4", some 999999, some "v"⟩,
            ⟨some "audio/webm", some 128000, some "a1"⟩,
            ⟨some "audio/mp4", some 128000, some "a2"⟩,
            ⟨some "audio/mp4", none, some "a3"⟩].filter isAudioFormat)) = some best ∧
      best ∈ [⟨some "video/mp4", some 999999, some "v"⟩,
        ⟨some "audio/webm", some 128000, some "a1"⟩,
        ⟨some "audio/mp4", some 128000, some "a2"⟩,
        ⟨some "audio/mp4", none, some "a3"⟩].filter isAudioFormat ∧
      ∀ a ∈ [⟨some "video/mp4", some 999999, some "v"⟩,
        ⟨some "audio/webm", some 128000, some "a1"⟩,
        ⟨some "audio/mp4", some 128000, some "a2"⟩,
        ⟨some "audio/mp4", none, some "a3"⟩].filter isAudioFormat,
        bitrateKey a ≤ bitrateKey best :=
  C9_best_audio_format_selection
    [⟨some "video/mp4", some 999999, some "v"⟩,
     ⟨some "audio/webm", some 128000, some "a1"⟩,
     ⟨some "audio/mp4", some 128000, some "a2"⟩,
     ⟨some "audio/mp4", none, some "a3"⟩] (by decide)
